import Mathlib

/-!
Shallow embedding of the environment-variable validation module
(`src/lib/env.ts`) of the nigerian-tax-calculator repository, together
with proofs of the testable properties stated in the specification.

The configuration source (`process.env`) is modelled as a lookup function
`String → Option String`; the runtime-context check
(whether `window` is defined) is modelled as an explicit boolean
parameter `windowDefined`; a thrown `Error` becomes the `error`
constructor of `Except`, carrying the structured data (which group
failed, the missing-name list, the empty-name list) from which the code
builds its message string.
-/

namespace TaxEnv

/-- The ambient configuration source (`process.env`): looks a variable
name up, giving its string value, or `none` when the variable is not
defined. -/
abbrev EnvSource := String → Option String

/-- A validated mapping, as the validators build it with
`acc[key] = process.env[key]`: an association list from variable names to
the (option-typed) value read from the source. -/
abbrev EnvMap := List (String × Option String)

/-- Whitespace characters removed by JavaScript `String.prototype.trim`
(ASCII whitespace, NBSP, BOM, and the Unicode space separators). -/
def isJsWhitespace (c : Char) : Bool :=
  c == ' ' || c == '\t' || c == '\n' || c == '\r' || c == '\x0b' || c == '\x0c' ||
  c == '\u00A0' || c == '\uFEFF' || c == '\u1680' || c == '\u202F' || c == '\u205F' ||
  c == '\u3000' || c == '\u2028' || c == '\u2029' ||
  ('\u2000' ≤ c && c ≤ '\u200A')

/-- JavaScript `String.prototype.trim`: strips leading and trailing
whitespace. -/
def jsTrim (s : String) : String :=
  String.mk (((s.data.dropWhile isJsWhitespace).reverse.dropWhile isJsWhitespace).reverse)

/-- The `requiredClientVars` list of `validateClientEnv` (the 12 public
names), in declaration order. -/
def requiredClientVars : List String :=
  ["NEXT_PUBLIC_SUPABASE_URL",
   "NEXT_PUBLIC_SUPABASE_ANON_KEY",
   "NEXT_PUBLIC_PLASMIC_PROJECT_ID",
   "NEXT_PUBLIC_PLASMIC_TOKEN",
   "NEXT_PUBLIC_RECAPTCHA_SITE_KEY",
   "NEXT_PUBLIC_PAYSTACK_PUBLIC_KEY",
   "NEXT_PUBLIC_REMITA_MERCHANT_ID",
   "NEXT_PUBLIC_REMITA_SERVICE_TYPE_ID",
   "NEXT_PUBLIC_OPAY_MERCHANT_ID",
   "NEXT_PUBLIC_OPAY_PUBLIC_KEY",
   "NEXT_PUBLIC_APP_ENV",
   "NEXT_PUBLIC_APP_URL"]

/-- The `requiredServerVars` list of `validateServerEnv` (the 5 secret
names), in declaration order. -/
def requiredServerVars : List String :=
  ["SUPABASE_SERVICE_ROLE_KEY",
   "RECAPTCHA_SECRET_KEY",
   "PAYSTACK_SECRET_KEY",
   "REMITA_API_KEY",
   "OPAY_SECRET_KEY"]

/-- A validation failure: which group failed, with its missing-name and
empty-name lists (the data from which the message of the thrown `Error`
is built). -/
inductive EnvError where
  | clientError (missing empty : List String)
  | serverError (missing empty : List String)
  deriving DecidableEq, Repr

/-- The classification loop shared by both validators: walk the required
names in order; a name whose lookup is undefined goes on the missing
list, a name whose value trims to the empty string goes on the empty
list. -/
def scanVars (src : EnvSource) : List String → List String × List String
  | [] => ([], [])
  | v :: vs =>
    let rest := scanVars src vs
    match src v with
    | none => (v :: rest.1, rest.2)
    | some value => if jsTrim value == "" then (rest.1, v :: rest.2) else rest

/-- JavaScript `Array.prototype.join` with a newline separator, as used
on `errorParts`. -/
def joinWithNewline : List String → String
  | [] => ""
  | [x] => x
  | x :: xs => x ++ "\n" ++ joinWithNewline xs

/-- The `errorParts` array built by `validateClientEnv` before throwing. -/
def clientErrorParts (missing empty : List String) : List String :=
  ["❌ Environment Variable Validation Failed!",
   "",
   "Required client-side environment variables are not properly configured.",
   ""]
  ++ (if missing.length > 0 then
        ["Missing variables (not defined in .env.local):"]
        ++ missing.map (fun varName => "  - " ++ varName) ++ [""]
      else [])
  ++ (if empty.length > 0 then
        ["Empty variables (defined but have no value):"]
        ++ empty.map (fun varName => "  - " ++ varName) ++ [""]
      else [])
  ++ ["How to fix:",
      "1. Copy .env.example to .env.local:",
      "   cp .env.example .env.local",
      "",
      "2. Fill in the missing/empty values in .env.local",
      "",
      "3. Restart your development server",
      "",
      "See .env.example for guidance on where to get these values."]

/-- The `errorParts` array built by `validateServerEnv` before throwing. -/
def serverErrorParts (missing empty : List String) : List String :=
  ["❌ Server Environment Variable Validation Failed!",
   "",
   "Required server-side (secret) environment variables are not properly configured.",
   "",
   "⚠️  WARNING: These variables should NEVER be prefixed with NEXT_PUBLIC_",
   "   They contain sensitive data and must remain server-side only!",
   ""]
  ++ (if missing.length > 0 then
        ["Missing variables (not defined in .env.local):"]
        ++ missing.map (fun varName => "  - " ++ varName) ++ [""]
      else [])
  ++ (if empty.length > 0 then
        ["Empty variables (defined but have no value):"]
        ++ empty.map (fun varName => "  - " ++ varName) ++ [""]
      else [])
  ++ ["How to fix:",
      "1. Check your .env.local file",
      "",
      "2. Fill in the missing/empty SECRET variables",
      "   (Do NOT add NEXT_PUBLIC_ prefix to these!)",
      "",
      "3. Restart your development server",
      "",
      "See .env.example for guidance on where to get these values."]

/-- The message string carried by the thrown `Error`: the join of
`errorParts` with newlines. -/
def EnvError.message : EnvError → String
  | .clientError missing empty => joinWithNewline (clientErrorParts missing empty)
  | .serverError missing empty => joinWithNewline (serverErrorParts missing empty)

/-- `validateClientEnv`: classifies the 12 required public names, throws
a client-group error when any is missing or empty, and otherwise returns
the mapping of the required names to their looked-up values. -/
def validateClientEnv (src : EnvSource) : Except EnvError EnvMap :=
  let scanned := scanVars src requiredClientVars
  if scanned.1.length > 0 ∨ scanned.2.length > 0 then
    .error (.clientError scanned.1 scanned.2)
  else
    .ok (requiredClientVars.map fun key => (key, src key))

/-- `validateServerEnv`: in a browser-like context (`window` defined) it
returns an empty mapping at once; otherwise it classifies the 5 required
secret names exactly as the client validator does, throwing a
server-group error or returning the mapping of secret names to their
looked-up values. -/
def validateServerEnv (windowDefined : Bool) (src : EnvSource) : Except EnvError EnvMap :=
  if windowDefined then
    .ok []
  else
    let scanned := scanVars src requiredServerVars
    if scanned.1.length > 0 ∨ scanned.2.length > 0 then
      .error (.serverError scanned.1 scanned.2)
    else
      .ok (requiredServerVars.map fun key => (key, src key))

/-- `validateEnv`: runs the client validator, then the server validator,
and merges the two mappings by object spread — `clientEnv` entries
followed by `serverEnv` entries; the key sets are disjoint. -/
def validateEnv (windowDefined : Bool) (src : EnvSource) : Except EnvError EnvMap :=
  match validateClientEnv src with
  | .error e => .error e
  | .ok clientEnv =>
    match validateServerEnv windowDefined src with
    | .error e => .error e
    | .ok serverEnv => .ok (clientEnv ++ serverEnv)

/-- Property access `env[key]` on a validated mapping: the stored value
when the key is present, `none` (undefined) otherwise. -/
def envGet (e : EnvMap) (key : String) : Option String :=
  (e.lookup key).getD none

/-- `isProduction`: the tier value strictly equals the literal
`production`. -/
def isProduction (e : EnvMap) : Bool :=
  envGet e "NEXT_PUBLIC_APP_ENV" == some "production"

/-- `isDevelopment`: the tier value strictly equals the literal
`development`. -/
def isDevelopment (e : EnvMap) : Bool :=
  envGet e "NEXT_PUBLIC_APP_ENV" == some "development"

/-- `isStaging`: the tier value strictly equals the literal `staging`. -/
def isStaging (e : EnvMap) : Bool :=
  envGet e "NEXT_PUBLIC_APP_ENV" == some "staging"

/-- `isServer`: true when `window` is undefined. -/
def isServer (windowDefined : Bool) : Bool :=
  !windowDefined

/-- The fixed marker substring that the external display collaborator
(`EnvErrorDisplay`) checks the error message for, using `includes`. -/
def envValidationFailedMarker : String :=
  "Environment Variable Validation Failed"

/-- JavaScript `String.prototype.includes`: the second string occurs as a
contiguous substring of the first. -/
def jsStringIncludes (s sub : String) : Prop :=
  ∃ a b, s = a ++ sub ++ b

/-! ### Characterisation of the classification loop -/

/-- A name is classified `empty` by the loop: its lookup is defined but
the value trims to the empty string. -/
def blankAt (src : EnvSource) (v : String) : Bool :=
  match src v with
  | none => false
  | some value => jsTrim value == ""

/-- The names of a required list that the loop classifies `missing`, in
declaration order. -/
def missingOf (src : EnvSource) (vars : List String) : List String :=
  vars.filter fun v => (src v).isNone

/-- The names of a required list that the loop classifies `empty`, in
declaration order. -/
def emptyOf (src : EnvSource) (vars : List String) : List String :=
  vars.filter (blankAt src)

theorem scanVars_eq (src : EnvSource) (vars : List String) :
    scanVars src vars = (missingOf src vars, emptyOf src vars) := by
  induction vars with
  | nil => rfl
  | cons v vs ih =>
    simp only [scanVars, ih, missingOf, emptyOf, List.filter_cons]
    cases hv : src v with
    | none => simp [blankAt, hv]
    | some s =>
      by_cases hb : jsTrim s == ""
      · simp [blankAt, hv, hb]
      · simp [blankAt, hv, hb]

theorem validateClientEnv_error_eq (src : EnvSource)
    (h : missingOf src requiredClientVars ≠ [] ∨ emptyOf src requiredClientVars ≠ []) :
    validateClientEnv src =
      .error (.clientError (missingOf src requiredClientVars) (emptyOf src requiredClientVars)) := by
  unfold validateClientEnv
  rw [scanVars_eq]
  rw [if_pos]
  rcases h with h | h
  · exact Or.inl (List.length_pos.mpr h)
  · exact Or.inr (List.length_pos.mpr h)

theorem validateClientEnv_ok_eq (src : EnvSource)
    (h : ∀ v ∈ requiredClientVars, (src v).isNone = false ∧ blankAt src v = false) :
    validateClientEnv src = .ok (requiredClientVars.map fun key => (key, src key)) := by
  unfold validateClientEnv
  rw [scanVars_eq]
  rw [if_neg]
  push_neg
  constructor
  · simp only [missingOf, Nat.le_zero, List.length_eq_zero, List.filter_eq_nil_iff]
    intro a ha
    simp [(h a ha).1]
  · simp only [emptyOf, Nat.le_zero, List.length_eq_zero, List.filter_eq_nil_iff]
    intro a ha
    simp [(h a ha).2]

theorem validateServerEnv_error_eq (src : EnvSource)
    (h : missingOf src requiredServerVars ≠ [] ∨ emptyOf src requiredServerVars ≠ []) :
    validateServerEnv false src =
      .error (.serverError (missingOf src requiredServerVars) (emptyOf src requiredServerVars)) := by
  unfold validateServerEnv
  rw [if_neg (by simp)]
  rw [scanVars_eq]
  rw [if_pos]
  rcases h with h | h
  · exact Or.inl (List.length_pos.mpr h)
  · exact Or.inr (List.length_pos.mpr h)

theorem validateServerEnv_ok_eq (src : EnvSource)
    (h : ∀ v ∈ requiredServerVars, (src v).isNone = false ∧ blankAt src v = false) :
    validateServerEnv false src = .ok (requiredServerVars.map fun key => (key, src key)) := by
  unfold validateServerEnv
  rw [if_neg (by simp)]
  rw [scanVars_eq]
  rw [if_neg]
  push_neg
  constructor
  · simp only [missingOf, Nat.le_zero, List.length_eq_zero, List.filter_eq_nil_iff]
    intro a ha
    simp [(h a ha).1]
  · simp only [emptyOf, Nat.le_zero, List.length_eq_zero, List.filter_eq_nil_iff]
    intro a ha
    simp [(h a ha).2]

theorem validateEnv_of_client_error (windowDefined : Bool) (src : EnvSource) (e : EnvError)
    (hc : validateClientEnv src = .error e) :
    validateEnv windowDefined src = .error e := by
  unfold validateEnv
  rw [hc]

theorem validateEnv_of_ok (windowDefined : Bool) (src : EnvSource) (c s : EnvMap)
    (hc : validateClientEnv src = .ok c)
    (hs : validateServerEnv windowDefined src = .ok s) :
    validateEnv windowDefined src = .ok (c ++ s) := by
  unfold validateEnv
  rw [hc, hs]

theorem validateClientEnv_ok_inv (src : EnvSource) (m : EnvMap)
    (h : validateClientEnv src = .ok m) :
    m = requiredClientVars.map fun key => (key, src key) := by
  simp only [validateClientEnv] at h
  split at h
  · exact absurd h (by simp)
  · exact (Except.ok.injEq _ _ ▸ h).symm

theorem validateServerEnv_ok_inv (src : EnvSource) (m : EnvMap)
    (h : validateServerEnv false src = .ok m) :
    m = requiredServerVars.map fun key => (key, src key) := by
  simp only [validateServerEnv] at h
  rw [if_neg (by simp)] at h
  split at h
  · exact absurd h (by simp)
  · exact (Except.ok.injEq _ _ ▸ h).symm

theorem validateEnv_ok_inv (windowDefined : Bool) (src : EnvSource) (m : EnvMap)
    (h : validateEnv windowDefined src = .ok m) :
    ∃ c s, validateClientEnv src = .ok c ∧ validateServerEnv windowDefined src = .ok s ∧
      m = c ++ s := by
  unfold validateEnv at h
  cases hc : validateClientEnv src with
  | error e => rw [hc] at h; exact absurd h (by simp)
  | ok c =>
    rw [hc] at h
    cases hs : validateServerEnv windowDefined src with
    | error e => rw [hs] at h; exact absurd h (by simp)
    | ok s =>
      rw [hs] at h
      exact ⟨c, s, rfl, rfl, ((Except.ok.injEq _ _ ▸ h)).symm⟩

theorem lookup_map_self (src : EnvSource) (vars : List String) (v : String) (hv : v ∈ vars) :
    ((vars.map fun key => (key, src key)).lookup v) = some (src v) := by
  induction vars with
  | nil => cases hv
  | cons a l ih =>
    rcases List.mem_cons.mp hv with h | h
    · subst h
      simp [List.lookup]
    · by_cases hva : v = a
      · subst hva
        simp [List.lookup]
      · simp [List.lookup, beq_eq_false_iff_ne.mpr hva, ih h]

theorem scanVars_congr (src1 src2 : EnvSource) (vars : List String)
    (h : ∀ v ∈ vars, src1 v = src2 v) :
    scanVars src1 vars = scanVars src2 vars := by
  induction vars with
  | nil => rfl
  | cons a l ih =>
    have ha := h a (List.mem_cons_self a l)
    have hl := ih (fun v hv => h v (List.mem_cons_of_mem a hv))
    simp only [scanVars, hl, ha]

theorem joinWithNewline_cons_cons (x y : String) (l : List String) :
    joinWithNewline (x :: y :: l) = x ++ "\n" ++ joinWithNewline (y :: l) :=
  rfl

theorem marker_in_join (pre post y H : String) (l : List String)
    (hH : H = pre ++ envValidationFailedMarker ++ post) :
    jsStringIncludes (joinWithNewline (H :: y :: l)) envValidationFailedMarker := by
  refine ⟨pre, post ++ ("\n" ++ joinWithNewline (y :: l)), ?_⟩
  rw [joinWithNewline_cons_cons, hH]
  simp [String.append_assoc]

/-! ### The claims -/

/-- Claim C1: for every configuration source, secret validation invoked in a
browser-like context (`window` defined) returns an empty mapping and never
raises, regardless of what the source holds for any variable. -/
theorem validateServerEnv_browser_empty (src : EnvSource) :
    validateServerEnv true src = Except.ok ([] : EnvMap) :=
  rfl

/-- Claim C2 (counterexample): in a browser-like context both validation
passes succeed on a fully-populated source, yet the merged mapping holds
only the 12 public names, not all 17 — the key set is not the union of the
two name lists. -/
theorem validateEnv_browser_keyset_counterexample :
    validateEnv true (fun _ => some "v") =
      Except.ok (requiredClientVars.map fun key => (key, some "v"))
    ∧ (requiredClientVars.map fun key => ((key, some "v") : String × Option String)).map Prod.fst
        ≠ requiredClientVars ++ requiredServerVars
    ∧ "SUPABASE_SERVICE_ROLE_KEY" ∈ requiredServerVars := by
  refine ⟨rfl, by decide, by decide⟩

/-- Claim C2 (amended to a secrets-reachable context): whenever the
orchestrator succeeds with `window` undefined, the key list of the merged
mapping is exactly the 12 public names followed by the 5 secret names —
all 17, none extra, none missing. -/
theorem validateEnv_server_keyset (src : EnvSource) (m : EnvMap)
    (h : validateEnv false src = .ok m) :
    m.map Prod.fst = requiredClientVars ++ requiredServerVars := by
  obtain ⟨c, s, hc, hs, hm⟩ := validateEnv_ok_inv false src m h
  subst hm
  rw [validateClientEnv_ok_inv src c hc, validateServerEnv_ok_inv src s hs]
  simp [Function.comp_def]

/-- Witness for the amended theorem of Claim C2, at a source defining every
variable as `"v"`. -/
theorem validateEnv_server_keyset_witness :
    ((requiredClientVars ++ requiredServerVars).map
        fun key => ((key, some "v") : String × Option String)).map Prod.fst
      = requiredClientVars ++ requiredServerVars :=
  validateEnv_server_keyset (fun _ => some "v")
    ((requiredClientVars ++ requiredServerVars).map fun key => (key, some "v")) rfl

/-- Claim C3: when some required public name is absent from the source,
public validation fails with a client-group error whose missing-name list
is the filter of the declared required list to the absent names — exactly
the absent required names, in declaration order. -/
theorem validateClientEnv_missing_exact (src : EnvSource) (v : String)
    (hv : v ∈ requiredClientVars) (hnone : src v = none) :
    validateClientEnv src =
      .error (.clientError (missingOf src requiredClientVars) (emptyOf src requiredClientVars))
    ∧ (∀ w, w ∈ missingOf src requiredClientVars ↔ w ∈ requiredClientVars ∧ src w = none) := by
  constructor
  · apply validateClientEnv_error_eq
    refine Or.inl fun hnil => ?_
    have hmem : v ∈ missingOf src requiredClientVars :=
      List.mem_filter.mpr ⟨hv, by simp [hnone]⟩
    rw [hnil] at hmem
    exact absurd hmem (List.not_mem_nil v)
  · intro w
    constructor
    · intro hw
      obtain ⟨h1, h2⟩ := List.mem_filter.mp hw
      exact ⟨h1, Option.isNone_iff_eq_none.mp h2⟩
    · rintro ⟨h1, h2⟩
      exact List.mem_filter.mpr ⟨h1, by simp [h2]⟩

/-- Witness for Claim C3, at the source defining nothing. -/
theorem validateClientEnv_missing_exact_witness :
    validateClientEnv (fun _ => none) =
      .error (.clientError (missingOf (fun _ => none) requiredClientVars)
                           (emptyOf (fun _ => none) requiredClientVars))
    ∧ (∀ w, w ∈ missingOf (fun _ => none) requiredClientVars ↔
        w ∈ requiredClientVars ∧ (none : Option String) = none) :=
  validateClientEnv_missing_exact (fun _ => none) "NEXT_PUBLIC_SUPABASE_URL" (by decide) rfl

/-- Claim C4: when some required public name is defined but its value is
all-whitespace, public validation fails, the name is on the empty-name
list, and it is not on the missing-name list. -/
theorem validateClientEnv_blank_classified (src : EnvSource) (v s : String)
    (hv : v ∈ requiredClientVars) (hsome : src v = some s) (hblank : jsTrim s = "") :
    validateClientEnv src =
      .error (.clientError (missingOf src requiredClientVars) (emptyOf src requiredClientVars))
    ∧ v ∈ emptyOf src requiredClientVars
    ∧ v ∉ missingOf src requiredClientVars := by
  have hb : blankAt src v = true := by simp [blankAt, hsome, hblank]
  refine ⟨?_, List.mem_filter.mpr ⟨hv, hb⟩, ?_⟩
  · apply validateClientEnv_error_eq
    refine Or.inr fun hnil => ?_
    have hmem : v ∈ emptyOf src requiredClientVars := List.mem_filter.mpr ⟨hv, hb⟩
    rw [hnil] at hmem
    exact absurd hmem (List.not_mem_nil v)
  · intro hmem
    have h2 := (List.mem_filter.mp hmem).2
    rw [hsome] at h2
    simp at h2

/-- Witness for Claim C4, at a source giving `NEXT_PUBLIC_APP_URL` the
all-whitespace value `" "` and every other variable `"v"`. -/
theorem validateClientEnv_blank_classified_witness :
    validateClientEnv (fun k => if k = "NEXT_PUBLIC_APP_URL" then some " " else some "v") =
      .error (.clientError
        (missingOf (fun k => if k = "NEXT_PUBLIC_APP_URL" then some " " else some "v")
          requiredClientVars)
        (emptyOf (fun k => if k = "NEXT_PUBLIC_APP_URL" then some " " else some "v")
          requiredClientVars))
    ∧ "NEXT_PUBLIC_APP_URL" ∈
        emptyOf (fun k => if k = "NEXT_PUBLIC_APP_URL" then some " " else some "v")
          requiredClientVars
    ∧ "NEXT_PUBLIC_APP_URL" ∉
        missingOf (fun k => if k = "NEXT_PUBLIC_APP_URL" then some " " else some "v")
          requiredClientVars :=
  validateClientEnv_blank_classified _ "NEXT_PUBLIC_APP_URL" " " (by decide) (by decide) (by decide)

/-- Claim C5: when the source defines every required name (public and
secret) with a non-blank value, validation succeeds in a
secrets-reachable context and the resulting mapping binds each required
name to the exact string value from the source — no trimming, no case
change, no coercion. -/
theorem validated_values_unmodified (src : EnvSource)
    (h : ∀ v ∈ requiredClientVars ++ requiredServerVars, ∃ s, src v = some s ∧ jsTrim s ≠ "") :
    validateEnv false src =
      .ok ((requiredClientVars ++ requiredServerVars).map fun key => (key, src key))
    ∧ ∀ v ∈ requiredClientVars ++ requiredServerVars,
        envGet ((requiredClientVars ++ requiredServerVars).map fun key => (key, src key)) v
          = src v := by
  have hcond : ∀ v ∈ requiredClientVars ++ requiredServerVars,
      (src v).isNone = false ∧ blankAt src v = false := by
    intro v hv
    obtain ⟨s, hs, hb⟩ := h v hv
    exact ⟨by simp [hs], by simp [blankAt, hs, hb]⟩
  have hc := validateClientEnv_ok_eq src
    (fun v hv => hcond v (List.mem_append_left _ hv))
  have hs' := validateServerEnv_ok_eq src
    (fun v hv => hcond v (List.mem_append_right _ hv))
  have henv := validateEnv_of_ok false src _ _ hc hs'
  constructor
  · rw [List.map_append]
    exact henv
  · intro v hv
    unfold envGet
    rw [lookup_map_self src _ v hv]
    rfl

/-- Witness for Claim C5, at the source defining every variable as
`"value"`. -/
theorem validated_values_unmodified_witness :
    validateEnv false (fun _ => some "value") =
      .ok ((requiredClientVars ++ requiredServerVars).map
        fun key => ((key, some "value") : String × Option String))
    ∧ ∀ v ∈ requiredClientVars ++ requiredServerVars,
        envGet ((requiredClientVars ++ requiredServerVars).map
          fun key => ((key, some "value") : String × Option String)) v = some "value" :=
  validated_values_unmodified (fun _ => some "value")
    (fun _ _ => ⟨"value", rfl, by decide⟩)

/-- Claim C8: in a secrets-reachable context, when both some required
public name and some required secret name are missing or blank, the
orchestrator surfaces the public-group error — the client validator runs
first, so the server-group failure is never reached. -/
theorem validateEnv_public_error_first (src : EnvSource)
    (hpub : ∃ v ∈ requiredClientVars, src v = none ∨ blankAt src v = true)
    (_hsec : ∃ v ∈ requiredServerVars, src v = none ∨ blankAt src v = true) :
    validateEnv false src =
      .error (.clientError (missingOf src requiredClientVars)
                           (emptyOf src requiredClientVars)) := by
  apply validateEnv_of_client_error
  apply validateClientEnv_error_eq
  obtain ⟨v, hv, hcase⟩ := hpub
  rcases hcase with h | h
  · refine Or.inl fun hnil => ?_
    have hmem : v ∈ missingOf src requiredClientVars :=
      List.mem_filter.mpr ⟨hv, by simp [h]⟩
    rw [hnil] at hmem
    exact absurd hmem (List.not_mem_nil v)
  · refine Or.inr fun hnil => ?_
    have hmem : v ∈ emptyOf src requiredClientVars := List.mem_filter.mpr ⟨hv, h⟩
    rw [hnil] at hmem
    exact absurd hmem (List.not_mem_nil v)

/-- Witness for Claim C8, at the source defining nothing: both groups
have failures, and the public-group error surfaces. -/
theorem validateEnv_public_error_first_witness :
    validateEnv false (fun _ => none) =
      .error (.clientError (missingOf (fun _ => none) requiredClientVars)
                           (emptyOf (fun _ => none) requiredClientVars)) :=
  validateEnv_public_error_first (fun _ => none)
    ⟨"NEXT_PUBLIC_SUPABASE_URL", by decide, Or.inl rfl⟩
    ⟨"SUPABASE_SERVICE_ROLE_KEY", by decide, Or.inl rfl⟩

theorem tier_beq_eq (e : EnvMap) (tier : String)
    (hget : envGet e "NEXT_PUBLIC_APP_ENV" = some tier) :
    isDevelopment e = (tier == "development")
    ∧ isStaging e = (tier == "staging")
    ∧ isProduction e = (tier == "production") := by
  unfold isDevelopment isStaging isProduction
  rw [hget]
  exact ⟨rfl, rfl, rfl⟩

/-- Claim C6: whenever the environment-tier value is one of the three
literals, exactly one of the precomputed predicates `isDevelopment`,
`isStaging`, `isProduction` is true. -/
theorem tier_predicates_exactly_one (e : EnvMap) (tier : String)
    (hget : envGet e "NEXT_PUBLIC_APP_ENV" = some tier)
    (htier : tier = "development" ∨ tier = "staging" ∨ tier = "production") :
    [isDevelopment e, isStaging e, isProduction e].count true = 1 := by
  obtain ⟨hd, hs, hp⟩ := tier_beq_eq e tier hget
  rw [hd, hs, hp]
  rcases htier with h | h | h <;> subst h <;> decide

/-- Witness for Claim C6, at a mapping whose tier value is
`"production"`. -/
theorem tier_predicates_exactly_one_witness :
    [isDevelopment [("NEXT_PUBLIC_APP_ENV", some "production")],
     isStaging [("NEXT_PUBLIC_APP_ENV", some "production")],
     isProduction [("NEXT_PUBLIC_APP_ENV", some "production")]].count true = 1 :=
  tier_predicates_exactly_one [("NEXT_PUBLIC_APP_ENV", some "production")] "production" rfl
    (Or.inr (Or.inr rfl))

/-- Claim C7: every validation error — of either group — carries a
message containing the fixed marker substring
`Environment Variable Validation Failed` that the display collaborator
checks with `includes`. -/
theorem validation_error_message_has_marker (e : EnvError) :
    jsStringIncludes e.message envValidationFailedMarker := by
  cases e with
  | clientError missing empty =>
    have h : EnvError.message (.clientError missing empty)
        = joinWithNewline ("❌ Environment Variable Validation Failed!" :: "" ::
            (clientErrorParts missing empty).tail.tail) := rfl
    rw [h]
    exact marker_in_join "❌ " "!" "" _ _ (by decide)
  | serverError missing empty =>
    have h : EnvError.message (.serverError missing empty)
        = joinWithNewline ("❌ Server Environment Variable Validation Failed!" :: "" ::
            (serverErrorParts missing empty).tail.tail) := rfl
    rw [h]
    exact marker_in_join "❌ Server " "!" "" _ _ (by decide)

/-- Claim C9: for any tier string — also outside the three literals — at
most one tier predicate is true; and a tier outside the three literals
passes validation (provided every public value is non-blank) with all
three predicates false. -/
theorem unknown_tier_all_false (src : EnvSource) (tier : String)
    (htier : src "NEXT_PUBLIC_APP_ENV" = some tier)
    (hok : ∀ v ∈ requiredClientVars, ∃ s, src v = some s ∧ jsTrim s ≠ "") :
    validateClientEnv src = .ok (requiredClientVars.map fun key => (key, src key))
    ∧ [isDevelopment (requiredClientVars.map fun key => (key, src key)),
       isStaging (requiredClientVars.map fun key => (key, src key)),
       isProduction (requiredClientVars.map fun key => (key, src key))].count true ≤ 1
    ∧ (tier ∉ (["development", "staging", "production"] : List String) →
        isDevelopment (requiredClientVars.map fun key => (key, src key)) = false
        ∧ isStaging (requiredClientVars.map fun key => (key, src key)) = false
        ∧ isProduction (requiredClientVars.map fun key => (key, src key)) = false) := by
  have hcond : ∀ v ∈ requiredClientVars, (src v).isNone = false ∧ blankAt src v = false := by
    intro v hv
    obtain ⟨s, hs, hb⟩ := hok v hv
    exact ⟨by simp [hs], by simp [blankAt, hs, hb]⟩
  have hmem : "NEXT_PUBLIC_APP_ENV" ∈ requiredClientVars := by decide
  have hget : envGet (requiredClientVars.map fun key => (key, src key)) "NEXT_PUBLIC_APP_ENV"
      = some tier := by
    unfold envGet
    rw [lookup_map_self src _ _ hmem, htier]
    rfl
  obtain ⟨hd, hs, hp⟩ := tier_beq_eq _ tier hget
  refine ⟨validateClientEnv_ok_eq src hcond, ?_, ?_⟩
  · rw [hd, hs, hp]
    by_cases h1 : tier = "development"
    · subst h1; decide
    by_cases h2 : tier = "staging"
    · subst h2; decide
    by_cases h3 : tier = "production"
    · subst h3; decide
    rw [beq_eq_false_iff_ne.mpr h1, beq_eq_false_iff_ne.mpr h2, beq_eq_false_iff_ne.mpr h3]
    decide
  · intro hnot
    have h1 : tier ≠ "development" := fun h => hnot (by rw [h]; decide)
    have h2 : tier ≠ "staging" := fun h => hnot (by rw [h]; decide)
    have h3 : tier ≠ "production" := fun h => hnot (by rw [h]; decide)
    exact ⟨by rw [hd]; exact beq_eq_false_iff_ne.mpr h1,
           by rw [hs]; exact beq_eq_false_iff_ne.mpr h2,
           by rw [hp]; exact beq_eq_false_iff_ne.mpr h3⟩

/-- Witness for Claim C9, at the source defining every variable as the
unknown tier string `"custom"`. -/
theorem unknown_tier_all_false_witness :
    validateClientEnv (fun _ => some "custom") =
      .ok (requiredClientVars.map fun key => ((key, some "custom") : String × Option String))
    ∧ [isDevelopment (requiredClientVars.map
         fun key => ((key, some "custom") : String × Option String)),
       isStaging (requiredClientVars.map
         fun key => ((key, some "custom") : String × Option String)),
       isProduction (requiredClientVars.map
         fun key => ((key, some "custom") : String × Option String))].count true ≤ 1
    ∧ (isDevelopment (requiredClientVars.map
         fun key => ((key, some "custom") : String × Option String)) = false
       ∧ isStaging (requiredClientVars.map
           fun key => ((key, some "custom") : String × Option String)) = false
       ∧ isProduction (requiredClientVars.map
           fun key => ((key, some "custom") : String × Option String)) = false) :=
  ⟨(unknown_tier_all_false (fun _ => some "custom") "custom" rfl
      (fun _ _ => ⟨"custom", rfl, by decide⟩)).1,
   (unknown_tier_all_false (fun _ => some "custom") "custom" rfl
      (fun _ _ => ⟨"custom", rfl, by decide⟩)).2.1,
   (unknown_tier_all_false (fun _ => some "custom") "custom" rfl
      (fun _ _ => ⟨"custom", rfl, by decide⟩)).2.2 (by decide)⟩

/-- Claim C10: noninterference between the two variable groups — the
outcome of the public validator depends only on the 12 public names, and
(in a secrets-reachable context) the outcome of the secret validator
depends only on
the 5 secret names. -/
theorem validators_noninterference (src1 src2 : EnvSource) :
    ((∀ v ∈ requiredClientVars, src1 v = src2 v) →
        validateClientEnv src1 = validateClientEnv src2)
    ∧ ((∀ v ∈ requiredServerVars, src1 v = src2 v) →
        validateServerEnv false src1 = validateServerEnv false src2) := by
  constructor
  · intro h
    have h1 := scanVars_congr src1 src2 requiredClientVars h
    have hmap : (requiredClientVars.map fun key => (key, src1 key))
        = requiredClientVars.map fun key => (key, src2 key) :=
      List.map_congr_left (fun a ha => by rw [h a ha])
    simp only [validateClientEnv, h1, hmap]
  · intro h
    have h1 := scanVars_congr src1 src2 requiredServerVars h
    have hmap : (requiredServerVars.map fun key => (key, src1 key))
        = requiredServerVars.map fun key => (key, src2 key) :=
      List.map_congr_left (fun a ha => by rw [h a ha])
    simp only [validateServerEnv, h1, hmap]

/-- Witness for Claim C10: two sources agreeing on the public names but
differing on a secret name give the public validator identical outcomes. -/
theorem validators_noninterference_witness :
    validateClientEnv (fun _ => some "a")
      = validateClientEnv
          (fun k => if k = "PAYSTACK_SECRET_KEY" then none else some "a") :=
  (validators_noninterference (fun _ => some "a")
      (fun k => if k = "PAYSTACK_SECRET_KEY" then none else some "a")).1 (by decide)

end TaxEnv
